import Mathlib

/-!
Verification development for the RustVM stack-based bytecode virtual machine
(`src/vm.rs`, with the identifier hash from `src/util.rs`).

Shallow-embedding conventions, chosen once and used throughout:

* Rust `f32` is modelled as exact rational arithmetic (`Rat`).  Arithmetic and
  parsing are exact where the hardware rounds; no property proved below
  depends on rounding.  Rust `i32` is modelled as `Int`, with explicit
  two's-complement wrapping (`% 2^32`, `% 2^64`) at the places where the
  source performs machine-width casts (`process_address`, the bitwise ops).
* Rust `HashMap<u64, RawValue>` is modelled as an association list
  (`List (Nat × RawValue)`); `insert` is modelled by consing, so a lookup
  sees the most recent binding, matching `HashMap::insert`'s overwrite.
* The operand stack `Vec<SystemValue>` is a `List SystemValue` whose head is
  the top of the stack (`push` = cons, `pop` = uncons).
* Fallible operations return `Except String`; both `panic!`/`unwrap` aborts
  and the `fault-checks` error returns of the source are modelled as an
  error outcome of the dispatch loop (the error text follows the source's
  `fault-checks` messages where the source defines one).
* The source's coercions `as_string`/`as_float`/`as_integer` recurse through
  stored `RawValue::Variable` values with no bound (the Rust recursion is
  unbounded and diverges on a reference cycle); the model adds an explicit
  depth argument, always called with `coercionDepth`.  Reachable states keep
  only materialized scalars in the binding maps (proved below), where depth 1
  already suffices, so the bound is immaterial.
* `VirtualMachine<State>`'s host `state` field and the generic `State`
  parameter play no role in any modelled operation and are omitted.
* A native function binding (`Fn(&VirtualMachine, &StackFrame) -> Result`)
  can read the frame and read or rewrite the globals through the VM's
  interior mutability; it is modelled as a function
  `StackFrame → Bindings → Except String Bindings`.
* `interpret` in the source drives a `loop` with no fuel; the model takes an
  explicit fuel argument and reports exhaustion as a distinct outcome.  The
  recursive call for a `VirtualFunction` is hoisted into the loop (Lean
  needs the structural fuel there); the per-opcode state transformation is
  otherwise a direct transcription of the source's `match` arms.
-/

/-- Variable identifiers: `pub type VariableIdentifier = u64`. -/
abbrev VariableIdentifier := Nat

/-- Alias for `String`, used in signatures inside the `RawValue` namespace
where the bare name would resolve to the `RawValue.String` constructor. -/
abbrev Str := String

/-- `enum AddressValue` from the source: a branch target. -/
inductive AddressValue where
  | RelativeOffset (offset : Int)
  | AbsoluteTarget (index : Nat)
deriving DecidableEq

/-- `enum VariableReference` from the source (the `PhantomData` field is
type-level only and dropped). -/
inductive VariableReference where
  | Global (value : VariableIdentifier)
  | Local (value : VariableIdentifier)
deriving DecidableEq

/-- `enum RawValue` from the source.  The single-field wrapper structs
`FloatValue`/`IntegerValue`/`StringValue`/`BooleanValue`/`VariableValue`
are flattened into the constructor payloads. -/
inductive RawValue where
  | Float (value : Rat)
  | Integer (value : Int)
  | String (value : String)
  | Boolean (value : Bool)
  | Variable (value : VariableReference)
deriving DecidableEq

/-- `enum SystemValue` from the source: a stack slot is a materialized raw
value or a variable reference. -/
inductive SystemValue where
  | Raw (value : RawValue)
  | Variable (value : VariableReference)
deriving DecidableEq

/-- The binding maps (`HashMap<VariableIdentifier, RawValue>`), modelled as
association lists where the most recent insertion is first. -/
abbrev Bindings := List (VariableIdentifier × RawValue)

/-- `struct StackFrame` from the source: operand stack plus frame locals. -/
structure StackFrame where
  stack : List SystemValue
  locals : Bindings
deriving DecidableEq

/-- The fresh frame `interpret` allocates on entry. -/
def emptyFrame : StackFrame := { stack := [], locals := [] }

/-- `VariableReference::deref`: look the identifier up in its domain.  The
source reads the globals out of the VM; the model passes the globals map
directly (it is the only VM field `deref` consults). -/
def VariableReference.deref (r : VariableReference) (globals : Bindings)
    (frame : StackFrame) : Except String RawValue :=
  match r with
  | .Global value =>
      match globals.lookup value with
      | some v => .ok v
      | none => .error "Variable Lookup Failed"
  | .Local value =>
      match frame.locals.lookup value with
      | some v => .ok v
      | none => .error "Variable Lookup Failed"

/-- ASCII lowercasing, modelling Rust's `str::to_lowercase` on the
identifier strings the source uses. -/
def toLowerStr (s : String) : String := String.mk (s.data.map Char.toLower)

/-- Digit-string value; helper for the numeric parsing models. -/
def digitsVal (l : List Char) : Nat :=
  l.foldl (fun a c => a * 10 + (c.toNat - 48)) 0

/-- Modelled host float parsing (`str::parse::<f32>`), exact over `Rat`:
an optional sign, then decimal digits with an optional fractional part.
The host parser also accepts exponent forms and `inf`/`nan`; no property
below exercises those. -/
def parsePosF32 (cs : List Char) : Option Rat :=
  let intPart := cs.takeWhile Char.isDigit
  let rest := cs.dropWhile Char.isDigit
  match rest with
  | [] => if intPart.isEmpty then none else some ((digitsVal intPart : Nat) : Rat)
  | '.' :: fracPart =>
      if fracPart.all Char.isDigit && !(intPart.isEmpty && fracPart.isEmpty) then
        some ((digitsVal intPart : Nat) + (digitsVal fracPart : Nat) / ((10 : Rat) ^ fracPart.length))
      else none
  | _ => none

/-- Signed entry point of the float-parsing model. -/
def parseF32 (s : String) : Option Rat :=
  match s.data with
  | '-' :: rest => (parsePosF32 rest).map Neg.neg
  | '+' :: rest => parsePosF32 rest
  | rest => parsePosF32 rest

/-- Truncation toward zero, the `f32 as i32` rounding direction. -/
def ratTrunc (q : Rat) : Int := if q < 0 then -((-q).floor) else q.floor

/-- Saturation to the `i32` range, the behavior of Rust's float-to-int
`as` cast. -/
def satI32 (x : Int) : Int :=
  if x < -(2 ^ 31) then -(2 ^ 31) else if x > 2 ^ 31 - 1 then 2 ^ 31 - 1 else x

/-- Modelled host integer parsing (`str::parse::<i32>`): optional sign,
decimal digits, error outside the `i32` range. -/
def parseI32 (s : String) : Option Int :=
  let core : List Char → Option Int := fun l =>
    if l.isEmpty || !(l.all Char.isDigit) then none else some ((digitsVal l : Nat) : Int)
  match s.data with
  | '-' :: rest => (core rest).bind fun n => if -n ≥ -(2 ^ 31) then some (-n) else none
  | '+' :: rest => (core rest).bind fun n => if n ≤ 2 ^ 31 - 1 then some n else none
  | rest => (core rest).bind fun n => if n ≤ 2 ^ 31 - 1 then some n else none

/-- Rendering model for `f32`'s `Display` (shortest round-trip decimal in
the host).  Only its `String`/`Integer`/`Boolean` siblings are exercised by
any property below; the exact float rendering is not load-bearing. -/
def floatToString (q : Rat) : String :=
  if q.den = 1 then toString q.num else toString q.num ++ "/" ++ toString q.den

/-- Depth bound supplied to the coercion recursions; see the header note. -/
def coercionDepth : Nat := 100

/-- `RawValue::as_string`: string coercion.  A stored `Variable` is
dereferenced and the coercion reapplied; a failed dereference yields `""`. -/
def RawValue.as_string (globals : Bindings) (frame : StackFrame) :
    Nat → RawValue → Str
  | _, .Float value => floatToString value
  | _, .Integer value => toString value
  | _, .String value => value
  | _, .Boolean value => if value then "true" else "false"
  | 0, .Variable _ => ""
  | fuel + 1, .Variable value =>
      match value.deref globals frame with
      | .ok dereferenced => RawValue.as_string globals frame fuel dereferenced
      | .error _ => ""

/-- `RawValue::as_float`: float coercion (string parse failure yields 0.0,
failed dereference yields 0.0). -/
def RawValue.as_float (globals : Bindings) (frame : StackFrame) :
    Nat → RawValue → Rat
  | _, .Float value => value
  | _, .Integer value => (value : Rat)
  | _, .String value =>
      match parseF32 value with
      | some result => result
      | none => 0
  | _, .Boolean value => if value then 1 else 0
  | 0, .Variable _ => 0
  | fuel + 1, .Variable value =>
      match value.deref globals frame with
      | .ok dereferenced => RawValue.as_float globals frame fuel dereferenced
      | .error _ => 0

/-- `RawValue::as_integer`: integer coercion. -/
def RawValue.as_integer (globals : Bindings) (frame : StackFrame) :
    Nat → RawValue → Int
  | _, .Float value => satI32 (ratTrunc value)
  | _, .Integer value => value
  | _, .String value =>
      match parseI32 value with
      | some v => v
      | none => 0
  | _, .Boolean value => if value then 1 else 0
  | 0, .Variable _ => 0
  | fuel + 1, .Variable value =>
      match value.deref globals frame with
      | .ok dereferenced => RawValue.as_integer globals frame fuel dereferenced
      | .error _ => 0

/-- `RawValue::as_boolean`.  Note the source's `Variable` arm is the
hardcoded `true` (marked `FIXME` there); it does not dereference. -/
def RawValue.as_boolean (globals : Bindings) (frame : StackFrame) :
    RawValue → Bool
  | .Float value => if value = 0 then false else true
  | .Integer value => if value = 0 then false else true
  | .String value =>
      match parseF32 value with
      | some v => if v = 0 then false else true
      | none => false
  | .Boolean value => value
  | .Variable _ => true

/-- `RawValue::equals`: float equality after coercion. -/
def RawValue.equals (globals : Bindings) (frame : StackFrame)
    (lhs rhs : RawValue) : Bool :=
  decide (lhs.as_float globals frame coercionDepth = rhs.as_float globals frame coercionDepth)

/-- `RawValue::add` (both operands coerced to float). -/
def RawValue.add (globals : Bindings) (frame : StackFrame)
    (lhs rhs : RawValue) : Rat :=
  lhs.as_float globals frame coercionDepth + rhs.as_float globals frame coercionDepth

/-- `RawValue::subtract`. -/
def RawValue.subtract (globals : Bindings) (frame : StackFrame)
    (lhs rhs : RawValue) : Rat :=
  lhs.as_float globals frame coercionDepth - rhs.as_float globals frame coercionDepth

/-- `RawValue::multiply`. -/
def RawValue.multiply (globals : Bindings) (frame : StackFrame)
    (lhs rhs : RawValue) : Rat :=
  lhs.as_float globals frame coercionDepth * rhs.as_float globals frame coercionDepth

/-- `RawValue::divide` (exact rational division stands in for `f32`
division; the host's division by zero produces an infinity or NaN, which
the `Rat` idealization cannot represent — not exercised below). -/
def RawValue.divide (globals : Bindings) (frame : StackFrame)
    (lhs rhs : RawValue) : Rat :=
  lhs.as_float globals frame coercionDepth / rhs.as_float globals frame coercionDepth

/-- `RawValue::negate`, transcribed from the source including its two
`FIXME` arms: `String` and `Variable` operands are silently left unchanged
(the source method mutates in place; the model returns the new value).
The interpreter never reaches this method — its `Negate` opcode arm panics
first (see `stepInstr`). -/
def RawValue.negate : RawValue → RawValue
  | .Float value => .Float (-value)
  | .Integer value => .Integer (-value)
  | .String value => .String value
  | .Boolean value => .Boolean (!value)
  | .Variable value => .Variable value

/-- `SystemValue::as_raw`: materialize a stack slot.  A reference whose
lookup fails materializes to the empty string (the Torque-mirroring
behavior the source comments on). -/
def SystemValue.as_raw (globals : Bindings) (frame : StackFrame) :
    SystemValue → RawValue
  | .Raw value => value
  | .Variable value =>
      match value.deref globals frame with
      | .ok dereferenced => dereferenced
      | .error _ => .String ""

/-- `SystemValue::as_variable` (the source's `vm`/`frame` parameters are
unused there and omitted here). -/
def SystemValue.as_variable : SystemValue → Except String VariableReference
  | .Raw _ => .error "Not a Variable"
  | .Variable value => .ok value

/-- `SystemValue::equals`: materialize both sides, then raw equality. -/
def SystemValue.equals (globals : Bindings) (frame : StackFrame)
    (lhs rhs : SystemValue) : Bool :=
  RawValue.equals globals frame (lhs.as_raw globals frame) (rhs.as_raw globals frame)

/-- `VariableReference::perform_assignment`: materialize the right-hand
side through the active frame, then insert at the identifier in the
reference's domain.  Returns the updated globals and frame. -/
def VariableReference.perform_assignment (r : VariableReference)
    (globals : Bindings) (frame : StackFrame) (rhs : SystemValue) :
    Bindings × StackFrame :=
  match r with
  | .Global value => ((value, rhs.as_raw globals frame) :: globals, frame)
  | .Local value =>
      (globals, { frame with locals := (value, rhs.as_raw globals frame) :: frame.locals })

/-- `enum OpCode` from the source (the `PushFloat` wrapper struct is
flattened; `State` is type-level only). -/
inductive OpCode where
  | PushFloat (value : Rat)
  | PushInteger (value : Int)
  | PushString (value : String)
  | Pop
  | Jump (target : AddressValue)
  | JumpTrue (target : AddressValue)
  | JumpFalse (target : AddressValue)
  | NOP
  | Swap
  | Assignment
  | Concat
  | Negate
  | Not
  | CallFunction (target : List String)
  | LogicalAnd
  | LogicalOr
  | BitwiseAnd
  | BitwiseOr
  | Add
  | Minus
  | Modulus
  | Multiply
  | Divide
  | LessThan
  | GreaterThan
  | GreaterThanOrEqual
  | Equals
  | NotEquals
  | StringEquals
  | StringNotEqual
  | PushVariable (var : VariableReference)

/-- `enum Function`: a host-native callable or an owned instruction
sequence.  See the header note for the native-binding model. -/
inductive Function where
  | NativeFunction (parameters : List String)
      (binding : StackFrame → Bindings → Except String Bindings)
  | VirtualFunction (parameters : List String) (instructions : List OpCode)

/-- `struct ClassEntry` (registered but never consulted by the
interpreter). -/
structure ClassEntry where
  name : String
  namespaces : List String
  functions : List (String × Function)

/-- `struct Namespace`: children, classes and functions keyed by lowercased
name, plus the function-lookup cache keyed by a 64-bit path hash. -/
inductive Namespace where
  | mk (children : List (String × Namespace))
       (classes : List (String × ClassEntry))
       (functions : List (String × Function))
       (function_cache : List (Nat × Function))

/-- Child-namespace table of a namespace node. -/
def Namespace.children : Namespace → List (String × Namespace)
  | .mk c _ _ _ => c

/-- Class table of a namespace node. -/
def Namespace.classes : Namespace → List (String × ClassEntry)
  | .mk _ c _ _ => c

/-- Function table of a namespace node. -/
def Namespace.functions : Namespace → List (String × Function)
  | .mk _ _ f _ => f

/-- Function-lookup cache of a namespace node. -/
def Namespace.function_cache : Namespace → List (Nat × Function)
  | .mk _ _ _ c => c

/-- One hashing step over a string's bytes.  Stands in for feeding the
bytes to the source's `SipHasher`; only determinism and 64-bit width
matter, never a concrete hash value. -/
def hashBytes (h : Nat) (s : String) : Nat :=
  s.data.foldl (fun a c => (a * 1099511628211 + c.toNat) % 2 ^ 64) h

/-- Hash seed (the model's stand-in for `SipHasher::new()`'s zeroed keys). -/
def hashSeed : Nat := 14695981039346656037 % 2 ^ 64

/-- `variable_name_to_identifier` from `src/util.rs`: lowercase, then hash. -/
def variable_name_to_identifier (name : String) : VariableIdentifier :=
  hashBytes hashSeed (toLowerStr name)

/-- The whole-path hash `lookup_function_cached` computes: every lowercased
path element is fed to one hasher. -/
def pathHash (path : List String) : Nat :=
  path.foldl (fun h e => hashBytes h (toLowerStr e)) hashSeed

/-- `Namespace::lookup_function_uncached_slice`: walk child namespaces
along the path; the final element is a function-table lookup.  The source
indexes `path[0]` unconditionally, so an empty path is a panic. -/
def Namespace.lookup_function_uncached_slice :
    List String → Namespace → Except String Function
  | [], _ => .error "panic: empty path"
  | [function_name], self =>
      match self.functions.lookup (toLowerStr function_name) with
      | some found_function => .ok found_function
      | none => .error "Function Lookup Failed"
  | next_namespace_name :: next1 :: next_rest, self =>
      match self.children.lookup (toLowerStr next_namespace_name) with
      | some next_namespace =>
          Namespace.lookup_function_uncached_slice (next1 :: next_rest) next_namespace
      | none => .error "Namespace Lookup Failed"

/-- `Namespace::lookup_function_cached`: consult the cache under the whole-
path hash; on a miss run the uncached walk.  NOTE (faithful to the source):
the miss path returns the walk's result without inserting it into
`function_cache` — the cache is never populated.  The updated namespace is
returned so that this fact is visible in the model. -/
def Namespace.lookup_function_cached (self : Namespace) (path : List String) :
    Namespace × Except String Function :=
  let lookup_id := pathHash path
  match self.function_cache.lookup lookup_id with
  | some cache_hit => (self, .ok cache_hit)
  | none =>
      match Namespace.lookup_function_uncached_slice path self with
      | .ok slow_search => (self, .ok slow_search)
      | .error e => (self, .error e)

/-- `struct VirtualMachine`: the shared globals and the root namespace
(the host `state` field is omitted; see the header note). -/
structure VirtualMachine where
  globals : Bindings
  root_namespace : Namespace

/-- `process_address`, transcribed with the source's own arithmetic: both
branches compute `(offset * -1) as usize` (the source marks the duplication
`FIXME`), so a positive relative offset is sign-extended to a huge unsigned
value before the add.  The model uses the release-build wrapping semantics
(`% 2^64`); a debug build panics on the same inputs. -/
def process_address (offset_out : Nat) (address : AddressValue) : Nat :=
  match address with
  | .RelativeOffset offset =>
      if offset < 0 then
        let calculated_offset := ((offset * -1) % 2 ^ 64).toNat
        (offset_out + 2 ^ 64 - calculated_offset) % 2 ^ 64
      else
        let calculated_offset := ((offset * -1) % 2 ^ 64).toNat
        (offset_out + calculated_offset) % 2 ^ 64
  | .AbsoluteTarget index => index

/-- Outcome of dispatching one instruction: continue at a program counter,
halt the frame with an error, or re-enter the loop on a virtual function's
body (the recursion itself lives in `runLoop`, which holds the fuel). -/
inductive StepOut where
  | next (vm : VirtualMachine) (frame : StackFrame) (pc : Nat)
  | halt (vm : VirtualMachine) (frame : StackFrame) (msg : String)
  | call (vm : VirtualMachine) (frame : StackFrame) (pc : Nat) (body : List OpCode)

/-- The VM component of a step outcome. -/
def StepOut.vmOf : StepOut → VirtualMachine
  | .next vm _ _ => vm
  | .halt vm _ _ => vm
  | .call vm _ _ _ => vm

/-- One arm of the source's dispatch `match`, transcribed opcode by opcode.
`next_index` is the already-advanced program counter (the source increments
before dispatch; branch opcodes overwrite it). -/
def stepInstr (vm : VirtualMachine) (frame : StackFrame) (next_index : Nat) :
    OpCode → StepOut
  | .Swap =>
      match frame.stack with
      | lhs :: rhs :: rest =>
          -- the source pushes rhs back first, then lhs: the two slots are
          -- restored in their original order
          .next vm { frame with stack := lhs :: rhs :: rest } next_index
      | _ => .halt vm frame "Failed to load Values off Stack for Swap"
  | .PushFloat value =>
      .next vm { frame with stack := .Raw (.Float value) :: frame.stack } next_index
  | .PushInteger value =>
      .next vm { frame with stack := .Raw (.Integer value) :: frame.stack } next_index
  | .PushString value =>
      .next vm { frame with stack := .Raw (.String value) :: frame.stack } next_index
  | .Pop =>
      match frame.stack with
      | _ :: rest => .next vm { frame with stack := rest } next_index
      | [] => .halt vm frame "Failed to Pop Value from Stack"
  | .Jump target =>
      .next vm frame (process_address next_index target)
  | .JumpTrue target =>
      match frame.stack with
      | current_value :: rest =>
          let frame1 := { frame with stack := rest }
          if (current_value.as_raw vm.globals frame1).as_boolean vm.globals frame1 then
            .next vm frame1 (process_address next_index target)
          else
            .next vm frame1 next_index
      | [] => .halt vm frame "Failed to Load condition for JumpTrue from Stack"
  | .JumpFalse target =>
      match frame.stack with
      | current_value :: rest =>
          let frame1 := { frame with stack := rest }
          if !((current_value.as_raw vm.globals frame1).as_boolean vm.globals frame1) then
            .next vm frame1 (process_address next_index target)
          else
            .next vm frame1 next_index
      | [] => .halt vm frame "Failed to Load condition for JumpTrue from Stack"
  | .NOP => .next vm frame next_index
  | .Assignment =>
      match frame.stack with
      | lhs :: rhs :: rest =>
          let frame1 := { frame with stack := rest }
          match lhs.as_variable with
          | .ok target =>
              let assigned := target.perform_assignment vm.globals frame1 rhs
              .next { vm with globals := assigned.1 }
                { assigned.2 with stack := lhs :: assigned.2.stack } next_index
          | .error _ => .halt vm frame1 "panic: Assignment target is not a Variable"
      | _ => .halt vm frame "Failed to Load lhs & rhs from Stack for Assignment"
  | .Concat =>
      match frame.stack with
      | lhs :: rhs :: rest =>
          let frame1 := { frame with stack := rest }
          let result :=
            (lhs.as_raw vm.globals frame1).as_string vm.globals frame1 coercionDepth
              ++ (rhs.as_raw vm.globals frame1).as_string vm.globals frame1 coercionDepth
          .next vm { frame1 with stack := .Raw (.String result) :: rest } next_index
      | _ => .halt vm frame "Failed to Load lhs & rhs from Stack for Concat"
  | .Negate => .halt vm frame "panic: Not Implemented"
  | .Not =>
      match frame.stack with
      | current_value :: rest =>
          let frame1 := { frame with stack := rest }
          let b := (current_value.as_raw vm.globals frame1).as_boolean vm.globals frame1
          .next vm { frame1 with stack := .Raw (.Boolean (!b)) :: rest } next_index
      | [] => .halt vm frame "panic: stack underflow on Not"
  | .CallFunction target =>
      -- the source takes a mutable borrow of the root namespace for the
      -- lookup; the (unchanged, see lookup_function_cached_fst) namespace it
      -- returns is threaded back into the VM, and the native binding sees
      -- that VM's globals (identical to vm.globals)
      match (vm.root_namespace.lookup_function_cached target).2 with
      | .error _ =>
          .halt { vm with root_namespace := (vm.root_namespace.lookup_function_cached target).1 }
            frame "panic: Function Lookup Failed"
      | .ok (.NativeFunction _ binding) =>
          match binding frame vm.globals with
          | .ok globals1 =>
              .next { globals := globals1,
                      root_namespace := (vm.root_namespace.lookup_function_cached target).1 }
                frame next_index
          | .error e =>
              .halt { vm with root_namespace := (vm.root_namespace.lookup_function_cached target).1 }
                frame e
      | .ok (.VirtualFunction _ instructions) =>
          .call { vm with root_namespace := (vm.root_namespace.lookup_function_cached target).1 }
            frame next_index instructions
  | .LogicalAnd =>
      match frame.stack with
      | lhs :: rhs :: rest =>
          let frame1 := { frame with stack := rest }
          let b := (lhs.as_raw vm.globals frame1).as_boolean vm.globals frame1
                && (rhs.as_raw vm.globals frame1).as_boolean vm.globals frame1
          .next vm { frame1 with stack := .Raw (.Boolean b) :: rest } next_index
      | _ => .halt vm frame "panic: stack underflow on LogicalAnd"
  | .LogicalOr =>
      match frame.stack with
      | lhs :: rhs :: rest =>
          let frame1 := { frame with stack := rest }
          let b := (lhs.as_raw vm.globals frame1).as_boolean vm.globals frame1
                || (rhs.as_raw vm.globals frame1).as_boolean vm.globals frame1
          .next vm { frame1 with stack := .Raw (.Boolean b) :: rest } next_index
      | _ => .halt vm frame "panic: stack underflow on LogicalOr"
  | .BitwiseAnd =>
      match frame.stack with
      | lhs :: rhs :: rest =>
          let frame1 := { frame with stack := rest }
          let li := (lhs.as_raw vm.globals frame1).as_integer vm.globals frame1 coercionDepth
          let ri := (rhs.as_raw vm.globals frame1).as_integer vm.globals frame1 coercionDepth
          let v := ((li % 2 ^ 32).toNat &&& (ri % 2 ^ 32).toNat : Nat)
          let r := if (v : Int) < 2 ^ 31 then (v : Int) else (v : Int) - 2 ^ 32
          .next vm { frame1 with stack := .Raw (.Integer r) :: rest } next_index
      | _ => .halt vm frame "panic: stack underflow on BitwiseAnd"
  | .BitwiseOr =>
      match frame.stack with
      | lhs :: rhs :: rest =>
          let frame1 := { frame with stack := rest }
          let li := (lhs.as_raw vm.globals frame1).as_integer vm.globals frame1 coercionDepth
          let ri := (rhs.as_raw vm.globals frame1).as_integer vm.globals frame1 coercionDepth
          let v := ((li % 2 ^ 32).toNat ||| (ri % 2 ^ 32).toNat : Nat)
          let r := if (v : Int) < 2 ^ 31 then (v : Int) else (v : Int) - 2 ^ 32
          .next vm { frame1 with stack := .Raw (.Integer r) :: rest } next_index
      | _ => .halt vm frame "panic: stack underflow on BitwiseOr"
  | .Add =>
      match frame.stack with
      | lhs :: rhs :: rest =>
          let frame1 := { frame with stack := rest }
          let result := RawValue.add vm.globals frame1
            (lhs.as_raw vm.globals frame1) (rhs.as_raw vm.globals frame1)
          .next vm { frame1 with stack := .Raw (.Float result) :: rest } next_index
      | _ => .halt vm frame "panic: stack underflow on Add"
  | .Minus =>
      match frame.stack with
      | lhs :: rhs :: rest =>
          let frame1 := { frame with stack := rest }
          let result := RawValue.subtract vm.globals frame1
            (lhs.as_raw vm.globals frame1) (rhs.as_raw vm.globals frame1)
          .next vm { frame1 with stack := .Raw (.Float result) :: rest } next_index
      | _ => .halt vm frame "panic: stack underflow on Minus"
  | .Modulus =>
      match frame.stack with
      | lhs :: rhs :: rest =>
          let frame1 := { frame with stack := rest }
          let li := (lhs.as_raw vm.globals frame1).as_integer vm.globals frame1 coercionDepth
          let ri := (rhs.as_raw vm.globals frame1).as_integer vm.globals frame1 coercionDepth
          if ri = 0 then .halt vm frame1 "panic: attempt to calculate the remainder with a divisor of zero"
          else
            .next vm { frame1 with stack := .Raw (.Integer (Int.tmod li ri)) :: rest } next_index
      | _ => .halt vm frame "panic: stack underflow on Modulus"
  | .Multiply =>
      match frame.stack with
      | lhs :: rhs :: rest =>
          let frame1 := { frame with stack := rest }
          let result := RawValue.multiply vm.globals frame1
            (lhs.as_raw vm.globals frame1) (rhs.as_raw vm.globals frame1)
          .next vm { frame1 with stack := .Raw (.Float result) :: rest } next_index
      | _ => .halt vm frame "panic: stack underflow on Multiply"
  | .Divide =>
      match frame.stack with
      | lhs :: rhs :: rest =>
          let frame1 := { frame with stack := rest }
          let result := RawValue.divide vm.globals frame1
            (lhs.as_raw vm.globals frame1) (rhs.as_raw vm.globals frame1)
          .next vm { frame1 with stack := .Raw (.Float result) :: rest } next_index
      | _ => .halt vm frame "panic: stack underflow on Divide"
  | .LessThan =>
      match frame.stack with
      | lhs :: rhs :: rest =>
          let frame1 := { frame with stack := rest }
          let b := decide ((lhs.as_raw vm.globals frame1).as_float vm.globals frame1 coercionDepth
                    < (rhs.as_raw vm.globals frame1).as_float vm.globals frame1 coercionDepth)
          .next vm { frame1 with stack := .Raw (.Boolean b) :: rest } next_index
      | _ => .halt vm frame "panic: stack underflow on LessThan"
  | .GreaterThan =>
      match frame.stack with
      | lhs :: rhs :: rest =>
          let frame1 := { frame with stack := rest }
          let b := decide ((rhs.as_raw vm.globals frame1).as_float vm.globals frame1 coercionDepth
                    < (lhs.as_raw vm.globals frame1).as_float vm.globals frame1 coercionDepth)
          .next vm { frame1 with stack := .Raw (.Boolean b) :: rest } next_index
      | _ => .halt vm frame "panic: stack underflow on GreaterThan"
  | .GreaterThanOrEqual =>
      match frame.stack with
      | lhs :: rhs :: rest =>
          let frame1 := { frame with stack := rest }
          let b := decide ((rhs.as_raw vm.globals frame1).as_float vm.globals frame1 coercionDepth
                    ≤ (lhs.as_raw vm.globals frame1).as_float vm.globals frame1 coercionDepth)
          .next vm { frame1 with stack := .Raw (.Boolean b) :: rest } next_index
      | _ => .halt vm frame "panic: stack underflow on GreaterThanOrEqual"
  | .Equals =>
      match frame.stack with
      | lhs :: rhs :: rest =>
          let frame1 := { frame with stack := rest }
          let b := SystemValue.equals vm.globals frame1 lhs rhs
          .next vm { frame1 with stack := .Raw (.Boolean b) :: rest } next_index
      | _ => .halt vm frame "panic: stack underflow on Equals"
  | .NotEquals =>
      match frame.stack with
      | lhs :: rhs :: rest =>
          let frame1 := { frame with stack := rest }
          let b := SystemValue.equals vm.globals frame1 lhs rhs
          .next vm { frame1 with stack := .Raw (.Boolean (!b)) :: rest } next_index
      | _ => .halt vm frame "panic: stack underflow on NotEquals"
  | .StringEquals =>
      match frame.stack with
      | lhs :: rhs :: rest =>
          let frame1 := { frame with stack := rest }
          let b := decide ((lhs.as_raw vm.globals frame1).as_string vm.globals frame1 coercionDepth
                    = (rhs.as_raw vm.globals frame1).as_string vm.globals frame1 coercionDepth)
          .next vm { frame1 with stack := .Raw (.Boolean b) :: rest } next_index
      | _ => .halt vm frame "panic: stack underflow on StringEquals"
  | .StringNotEqual =>
      match frame.stack with
      | lhs :: rhs :: rest =>
          let frame1 := { frame with stack := rest }
          let b := decide ((lhs.as_raw vm.globals frame1).as_string vm.globals frame1 coercionDepth
                    = (rhs.as_raw vm.globals frame1).as_string vm.globals frame1 coercionDepth)
          .next vm { frame1 with stack := .Raw (.Boolean (!b)) :: rest } next_index
      | _ => .halt vm frame "panic: stack underflow on StringNotEqual"
  | .PushVariable var =>
      .next vm { frame with stack := .Variable var :: frame.stack } next_index

/-- The dispatch loop of `VirtualMachine::interpret`: fetch at the program
counter, advance, dispatch, repeat; falling off the end is success.  The
result carries the final VM, the frame as it stood when the loop stopped,
and `none` on success or the error text on an abort (fuel exhaustion is
reported as the distinct text "Out of Fuel"). -/
def runLoop : Nat → List OpCode → VirtualMachine → StackFrame → Nat →
    VirtualMachine × StackFrame × Option String
  | 0, _, vm, frame, _ => (vm, frame, some "Out of Fuel")
  | fuel + 1, ops, vm, frame, current_index =>
      if h : current_index < ops.length then
        match stepInstr vm frame (current_index + 1) (ops.get ⟨current_index, h⟩) with
        | .next vm1 frame1 pc1 => runLoop fuel ops vm1 frame1 pc1
        | .halt vm1 frame1 msg => (vm1, frame1, some msg)
        | .call vm1 frame1 pc1 body =>
            -- run the callee on a fresh frame; on success resume at pc1
            -- with the callee's VM, otherwise propagate its error
            match (runLoop fuel body vm1 emptyFrame 0).2.2 with
            | none => runLoop fuel ops (runLoop fuel body vm1 emptyFrame 0).1 frame1 pc1
            | some msg => ((runLoop fuel body vm1 emptyFrame 0).1, frame1, some msg)
      else
        (vm, frame, none)

/-- `VirtualMachine::interpret`: allocate a fresh frame and drive the loop
from index 0. -/
def interpret (fuel : Nat) (instructions : List OpCode) (vm : VirtualMachine) :
    VirtualMachine × StackFrame × Option String :=
  runLoop fuel instructions vm emptyFrame 0

/-- The binding a variable reference denotes in a VM/frame pair (globals
for `Global`, frame locals for `Local`); specification-side accessor. -/
def bindingOf (vm : VirtualMachine) (frame : StackFrame) :
    VariableReference → Option RawValue
  | .Global value => vm.globals.lookup value
  | .Local value => frame.locals.lookup value

/-- A VM fresh out of `VirtualMachine::new`: empty globals, empty root
namespace.  Shared concrete instance for witnesses and counterexamples. -/
def vm0 : VirtualMachine :=
  { globals := [], root_namespace := Namespace.mk [] [] [] [] }

/-- A raw value is a materialized scalar: any variant except `Variable`. -/
def RawValue.isScalar : RawValue → Bool
  | .Variable _ => false
  | _ => true

/-- Every value stored in a binding map is a materialized scalar. -/
def scalarBindings (m : Bindings) : Bool :=
  m.all fun p => p.2.isScalar

/-- A stack slot is well-formed when a `Raw` slot holds a scalar (a
`Variable` slot is a reference by design). -/
def SystemValue.rawScalar : SystemValue → Bool
  | .Raw value => value.isScalar
  | .Variable _ => true

/-- Frame invariant: all `Raw` stack slots scalar, all locals scalar. -/
def goodFrame (f : StackFrame) : Bool :=
  f.stack.all SystemValue.rawScalar && scalarBindings f.locals

/-- A native binding preserves scalarity of the globals it rewrites. -/
def NativePreserves (binding : StackFrame → Bindings → Except String Bindings) : Prop :=
  ∀ fr g g1, scalarBindings g = true → binding fr g = .ok g1 → scalarBindings g1 = true

/-- The scalarity contract of a registered function: natives must preserve
scalar globals; virtual bodies need no side condition (the interpreter
itself maintains the invariant on them). -/
def FunctionScalarOK : Function → Prop
  | .NativeFunction _ binding => NativePreserves binding
  | .VirtualFunction _ _ => True

/-- Every function the namespace can resolve honors the scalarity
contract. -/
def NamespaceScalarOK (ns : Namespace) : Prop :=
  ∀ path f, (ns.lookup_function_cached path).2 = .ok f → FunctionScalarOK f

/-- The opcodes that can write a binding map or enter foreign code. -/
def opWrites : OpCode → Bool
  | .Assignment => true
  | .CallFunction _ => true
  | _ => false

/-- An instruction sequence containing no `Assignment` and no
`CallFunction`. -/
def noWriteOps (ops : List OpCode) : Bool :=
  ops.all fun op => !(opWrites op)

/-- The push opcode whose execution puts the given scalar literal on the
stack (no push opcode exists for `Boolean` or `Variable` raw values). -/
def pushLit : RawValue → Option OpCode
  | .Float value => some (.PushFloat value)
  | .Integer value => some (.PushInteger value)
  | .String value => some (.PushString value)
  | _ => none

/-- Scalarity of the state carried by a step outcome. -/
def StepOut.stateScalar : StepOut → Prop
  | .next vm f _ => scalarBindings vm.globals = true ∧ goodFrame f = true
  | .halt vm f _ => scalarBindings vm.globals = true ∧ goodFrame f = true
  | .call vm f _ _ => scalarBindings vm.globals = true ∧ goodFrame f = true

/-- A step outcome that carries the given VM unchanged and is not a call. -/
def StepOut.sameVM (vm : VirtualMachine) : StepOut → Prop
  | .next vm1 _ _ => vm1 = vm
  | .halt vm1 _ _ => vm1 = vm
  | .call _ _ _ _ => False

/-- A trivial native function (the `quit` binding the repository's test and
benchmark fixtures register: it succeeds and touches nothing). -/
def quitFunction : Function :=
  Function.NativeFunction [] (fun _ g => Except.ok g)

/-- A root namespace holding exactly the function `quit`, with an empty
lookup cache: the state right after the fixtures' registration. -/
def nsWithQuit : Namespace :=
  Namespace.mk [] [] [("quit", quitFunction)] []

theorem lookup_function_cached_fst (ns : Namespace) (path : List String) :
    (ns.lookup_function_cached path).1 = ns := by
  unfold Namespace.lookup_function_cached
  cases h : List.lookup (pathHash path) ns.function_cache with
  | some cache_hit => simp [h]
  | none =>
      simp only [h]
      split <;> rfl

/-- Claim C1, counterexample: after `PushInteger 1; PushInteger 2; Swap`
the stack still holds 2 on top of 1 — the claimed state `…, u, v` (1 on
top of 2 for v = 1, u = 2) does not hold.  The source's Swap arm pushes
the second-popped value first, which restores the popped order. -/
theorem swap_claim_counterexample :
    (interpret 4 [OpCode.PushInteger 1, OpCode.PushInteger 2, OpCode.Swap] vm0).2.1.stack
        = [SystemValue.Raw (RawValue.Integer 2), SystemValue.Raw (RawValue.Integer 1)]
  ∧ [SystemValue.Raw (RawValue.Integer 2), SystemValue.Raw (RawValue.Integer 1)]
      ≠ [SystemValue.Raw (RawValue.Integer 1), SystemValue.Raw (RawValue.Integer 2)] := by
  constructor
  · rfl
  · decide

/-- Claim C1, amended: Swap pops twice and re-pushes the two popped values
in the order they were popped, so the top two stack entries (and the whole
state) are left unchanged, and the opcode succeeds whenever the stack
holds at least two values. -/
theorem swap_is_identity_on_stack (u v : SystemValue) (rest : List SystemValue)
    (vm : VirtualMachine) (locals : Bindings) :
    runLoop 2 [OpCode.Swap] vm { stack := u :: v :: rest, locals := locals } 0
      = (vm, { stack := u :: v :: rest, locals := locals }, none) := by
  simp [runLoop, stepInstr]

/-- Claim C2, the code at the failing input: a relative offset of 0 or −1
resolves as the claim says, but the positive offset +1 at post-advance
counter 2 resolves to 1 — the `(offset * -1) as usize` slip makes every
positive relative offset move the counter backwards (with wraparound)
instead of forwards, so the resolved target is not `post-advance + k`. -/
theorem process_address_positive_offset_bug :
    process_address 1 (AddressValue.RelativeOffset 0) = 1
  ∧ process_address 1 (AddressValue.RelativeOffset (-1)) = 0
  ∧ process_address 2 (AddressValue.RelativeOffset 1) = 1
  ∧ (1 : Nat) ≠ 2 + 1 := by
  refine ⟨by decide, by decide, by decide, by decide⟩

/-- Claim C4, the code at the failing input: looking `quit` up in a
namespace that has the function registered but an empty cache succeeds via
the tree walk, yet the returned namespace's `function_cache` is still
empty — the hash of the path is not in it, so a second lookup misses the
cache again.  The cache-population step the claim describes is absent from
the source. -/
theorem lookup_cached_does_not_populate :
    (nsWithQuit.lookup_function_cached ["quit"]).2 = Except.ok quitFunction
  ∧ (nsWithQuit.lookup_function_cached ["quit"]).1.function_cache = []
  ∧ List.lookup (pathHash ["quit"])
      (nsWithQuit.lookup_function_cached ["quit"]).1.function_cache = none := by
  refine ⟨rfl, rfl, rfl⟩

/-- Claim C6, counterexample: the spec's string-concat scenario stores
"CAB" in `Local("s")`, not "ABC" — Concat builds first-pop ++ second-pop
(the top of the stack on the left). -/
theorem concat_sequence_counterexample :
    ((interpret 8 [OpCode.PushString "AB", OpCode.PushString "C", OpCode.Concat,
        OpCode.PushVariable (VariableReference.Local (variable_name_to_identifier "s")),
        OpCode.Swap, OpCode.Assignment, OpCode.Pop] vm0).2.1.locals.lookup
          (variable_name_to_identifier "s")).map
        (RawValue.as_string [] emptyFrame coercionDepth)
      = some "CAB"
  ∧ ("CAB" : String) ≠ "ABC" := by
  constructor
  · rfl
  · decide

/-- Claim C6, amended: the sequence `PushString "AB"; PushString "C";
Concat; PushVariable (Local "s"); Swap; Assignment; Pop` on a fresh frame
succeeds and leaves the binding of `Local("s")`, coerced to string, equal
to "CAB". -/
theorem concat_sequence_stores_cab :
    (interpret 8 [OpCode.PushString "AB", OpCode.PushString "C", OpCode.Concat,
        OpCode.PushVariable (VariableReference.Local (variable_name_to_identifier "s")),
        OpCode.Swap, OpCode.Assignment, OpCode.Pop] vm0).2.2 = none
  ∧ ((interpret 8 [OpCode.PushString "AB", OpCode.PushString "C", OpCode.Concat,
        OpCode.PushVariable (VariableReference.Local (variable_name_to_identifier "s")),
        OpCode.Swap, OpCode.Assignment, OpCode.Pop] vm0).2.1.locals.lookup
          (variable_name_to_identifier "s")).map
        (RawValue.as_string [] emptyFrame coercionDepth)
      = some "CAB" := by
  refine ⟨rfl, rfl⟩

/-- Claim C7, the code at the failing input: executing Negate on a stack
holding `Float 1.0` does not push `Float (−1.0)` — the opcode's dispatch
arm is `panic!("Not Implemented")`, so every Negate aborts the frame.
Moreover the (unreachable) helper `RawValue::negate` leaves a String
operand unchanged rather than failing, against the claim's error
contract. -/
theorem negate_opcode_panics :
    (interpret 3 [OpCode.PushFloat 1, OpCode.Negate] vm0).2.2
      = some "panic: Not Implemented"
  ∧ RawValue.negate (RawValue.String "x") = RawValue.String "x" := by
  refine ⟨rfl, rfl⟩

/-- Claim C8: Add and Multiply are commutative in the pushed result value
modulo coercion — executing the opcode with the two operands pushed in
either order produces identical outcomes (in particular the same pushed
Float), for every pair of stack operands and every VM state. -/
theorem add_multiply_commutative (a b : SystemValue) (rest : List SystemValue)
    (vm : VirtualMachine) (locals : Bindings) :
    runLoop 2 [OpCode.Add] vm { stack := b :: a :: rest, locals := locals } 0
      = runLoop 2 [OpCode.Add] vm { stack := a :: b :: rest, locals := locals } 0
  ∧ runLoop 2 [OpCode.Multiply] vm { stack := b :: a :: rest, locals := locals } 0
      = runLoop 2 [OpCode.Multiply] vm { stack := a :: b :: rest, locals := locals } 0 := by
  constructor <;>
    simp [runLoop, stepInstr, RawValue.add, RawValue.multiply, add_comm, mul_comm]

theorem runLoop_step {ops : List OpCode} {pc : Nat} (fuel : Nat)
    (vm : VirtualMachine) (frame : StackFrame) (h : pc < ops.length) :
    runLoop (fuel + 1) ops vm frame pc =
      match stepInstr vm frame (pc + 1) (ops.get ⟨pc, h⟩) with
      | .next vm1 frame1 pc1 => runLoop fuel ops vm1 frame1 pc1
      | .halt vm1 frame1 msg => (vm1, frame1, some msg)
      | .call vm1 frame1 pc1 body =>
          match (runLoop fuel body vm1 emptyFrame 0).2.2 with
          | none => runLoop fuel ops (runLoop fuel body vm1 emptyFrame 0).1 frame1 pc1
          | some msg => ((runLoop fuel body vm1 emptyFrame 0).1, frame1, some msg) := by
  rw [runLoop, dif_pos h]

theorem runLoop_done {ops : List OpCode} {pc : Nat} (fuel : Nat)
    (vm : VirtualMachine) (frame : StackFrame) (h : ¬ pc < ops.length) :
    runLoop (fuel + 1) ops vm frame pc = (vm, frame, none) := by
  rw [runLoop, dif_neg h]

/-- Claim C3: for every variable reference and every pushed scalar literal,
`PushV; PushR; Assignment; Pop` succeeds and leaves the binding of the
reference equal to the pushed value exactly (Assignment pops the reference
first, the value second, stores the materialized second pop at the first
pop's identifier, and re-pushes the reference). -/
theorem assignment_stores_pushed_value (v : RawValue) (op : OpCode)
    (r : VariableReference) (vm : VirtualMachine)
    (h : pushLit v = some op) :
    (interpret 5 [op, OpCode.PushVariable r, OpCode.Assignment, OpCode.Pop] vm).2.2 = none
  ∧ bindingOf (interpret 5 [op, OpCode.PushVariable r, OpCode.Assignment, OpCode.Pop] vm).1
      (interpret 5 [op, OpCode.PushVariable r, OpCode.Assignment, OpCode.Pop] vm).2.1 r
    = some v := by
  cases v <;> simp only [pushLit, Option.some.injEq, reduceCtorEq] at h <;> subst h <;>
    cases r <;>
    (simp only [interpret];
     rw [runLoop_step 4 _ _ (by simp)];
     simp only [stepInstr, List.get];
     rw [runLoop_step 3 _ _ (by simp)];
     simp only [stepInstr, List.get];
     rw [runLoop_step 2 _ _ (by simp)];
     simp only [stepInstr, List.get, SystemValue.as_variable,
       VariableReference.perform_assignment, SystemValue.as_raw];
     rw [runLoop_step 1 _ _ (by simp)];
     simp only [stepInstr, List.get];
     rw [runLoop_done 0 _ _ (by simp)];
     simp [bindingOf, List.lookup_cons])

/-- Claim C3, witness at a concrete input: pushing the integer 7 and
assigning it to `Local 5` on the fresh VM. -/
theorem assignment_stores_pushed_value_witness :
    pushLit (RawValue.Integer 7) = some (OpCode.PushInteger 7)
  ∧ ((interpret 5 [OpCode.PushInteger 7,
        OpCode.PushVariable (VariableReference.Local 5),
        OpCode.Assignment, OpCode.Pop] vm0).2.2 = none
    ∧ bindingOf (interpret 5 [OpCode.PushInteger 7,
        OpCode.PushVariable (VariableReference.Local 5),
        OpCode.Assignment, OpCode.Pop] vm0).1
        (interpret 5 [OpCode.PushInteger 7,
          OpCode.PushVariable (VariableReference.Local 5),
          OpCode.Assignment, OpCode.Pop] vm0).2.1 (VariableReference.Local 5)
      = some (RawValue.Integer 7)) :=
  ⟨rfl, assignment_stores_pushed_value (RawValue.Integer 7) (OpCode.PushInteger 7)
    (VariableReference.Local 5) vm0 rfl⟩

/-- Claim C5: an identifier never written in its domain dereferences
without error at the opcode layer: coercing the reference to a string
yields "", and `PushVariable r; PushString ""; StringEquals` on a fresh
frame succeeds leaving exactly `Boolean true` on the stack. -/
theorem missing_variable_reads_empty (r : VariableReference) (vm : VirtualMachine)
    (h : bindingOf vm emptyFrame r = none) :
    ((SystemValue.Variable r).as_raw vm.globals emptyFrame).as_string
        vm.globals emptyFrame coercionDepth = ""
  ∧ (interpret 4 [OpCode.PushVariable r, OpCode.PushString "", OpCode.StringEquals] vm).2.2
      = none
  ∧ (interpret 4 [OpCode.PushVariable r, OpCode.PushString "", OpCode.StringEquals] vm).2.1.stack
      = [SystemValue.Raw (RawValue.Boolean true)] := by
  have hd : ∀ f : StackFrame, f.locals = [] →
      VariableReference.deref r vm.globals f = Except.error "Variable Lookup Failed" := by
    intro f hf
    cases r with
    | Global value =>
        simp only [bindingOf] at h
        simp [VariableReference.deref, h]
    | Local value =>
        simp [VariableReference.deref, hf]
  refine ⟨?_, ?_⟩
  · simp [SystemValue.as_raw, RawValue.as_string, emptyFrame, hd]
  constructor <;>
  (simp only [interpret, emptyFrame];
   rw [runLoop_step 3 _ _ (by simp)];
   simp only [stepInstr, List.get];
   rw [runLoop_step 2 _ _ (by simp)];
   simp only [stepInstr, List.get];
   rw [runLoop_step 1 _ _ (by simp)];
   simp only [stepInstr, List.get];
   simp only [SystemValue.as_raw, RawValue.as_string, hd];
   rw [runLoop_done 0 _ _ (by simp)];
   try simp)

/-- Claim C5, witness at a concrete input: the never-written `Local 99` on
the fresh VM. -/
theorem missing_variable_reads_empty_witness :
    bindingOf vm0 emptyFrame (VariableReference.Local 99) = none
  ∧ (((SystemValue.Variable (VariableReference.Local 99)).as_raw vm0.globals
        emptyFrame).as_string vm0.globals emptyFrame coercionDepth = ""
    ∧ (interpret 4 [OpCode.PushVariable (VariableReference.Local 99),
        OpCode.PushString "", OpCode.StringEquals] vm0).2.2 = none
    ∧ (interpret 4 [OpCode.PushVariable (VariableReference.Local 99),
        OpCode.PushString "", OpCode.StringEquals] vm0).2.1.stack
      = [SystemValue.Raw (RawValue.Boolean true)]) :=
  ⟨rfl, missing_variable_reads_empty (VariableReference.Local 99) vm0 rfl⟩

theorem stepInstr_no_write (vm : VirtualMachine) (frame : StackFrame) (n : Nat)
    (op : OpCode) (h : opWrites op = false) :
    (stepInstr vm frame n op).sameVM vm := by
  cases op
  case Assignment => exact Bool.noConfusion h
  case CallFunction => exact Bool.noConfusion h
  all_goals ((simp only [stepInstr]; repeat' split) <;> simp [StepOut.sameVM])

theorem runLoop_no_write (fuel : Nat) :
    ∀ (ops : List OpCode) (vm : VirtualMachine) (frame : StackFrame) (pc : Nat),
      noWriteOps ops = true → (runLoop fuel ops vm frame pc).1 = vm := by
  induction fuel with
  | zero => intro ops vm frame pc _; simp [runLoop]
  | succ n ih =>
      intro ops vm frame pc h
      rw [runLoop]
      split
      · rename_i hlt
        have hop : opWrites (ops.get ⟨pc, hlt⟩) = false := by
          have hmem := List.get_mem ops pc hlt
          have hall := (List.all_eq_true.mp h) _ hmem
          simp only [Bool.not_eq_true'] at hall
          exact hall
        have hstep := stepInstr_no_write vm frame (pc + 1) _ hop
        cases hs : stepInstr vm frame (pc + 1) (ops.get ⟨pc, hlt⟩) with
        | next vm1 f1 p1 =>
            rw [hs] at hstep
            simp only [StepOut.sameVM] at hstep
            rw [hstep]
            exact ih ops vm f1 p1 h
        | halt vm1 f1 m =>
            rw [hs] at hstep
            simp only [StepOut.sameVM] at hstep
            exact hstep
        | call vm1 f1 p1 body =>
            rw [hs] at hstep
            simp only [StepOut.sameVM] at hstep
      · rfl

/-- Claim C10: a run of the dispatch loop over an instruction sequence
containing no Assignment and no CallFunction leaves the VM's global
binding map and the namespace tables exactly as they were before the call
— reads of missing globals create no entries. -/
theorem no_write_run_preserves_vm (fuel : Nat) (ops : List OpCode)
    (vm : VirtualMachine) (frame : StackFrame) (pc : Nat)
    (h : noWriteOps ops = true) :
    (runLoop fuel ops vm frame pc).1.globals = vm.globals
  ∧ (runLoop fuel ops vm frame pc).1.root_namespace = vm.root_namespace := by
  rw [runLoop_no_write fuel ops vm frame pc h]
  exact ⟨rfl, rfl⟩

/-- Claim C10, witness at a concrete input: a sequence that pushes, reads a
missing local and a missing global, compares, pops and jumps — and the
fresh VM's (empty) globals and namespace are untouched. -/
theorem no_write_run_preserves_vm_witness :
    noWriteOps [OpCode.PushVariable (VariableReference.Global 8), OpCode.PushString "",
        OpCode.StringEquals, OpCode.Pop, OpCode.Jump (AddressValue.AbsoluteTarget 9)] = true
  ∧ ((runLoop 9 [OpCode.PushVariable (VariableReference.Global 8), OpCode.PushString "",
        OpCode.StringEquals, OpCode.Pop, OpCode.Jump (AddressValue.AbsoluteTarget 9)]
        vm0 emptyFrame 0).1.globals = vm0.globals
    ∧ (runLoop 9 [OpCode.PushVariable (VariableReference.Global 8), OpCode.PushString "",
        OpCode.StringEquals, OpCode.Pop, OpCode.Jump (AddressValue.AbsoluteTarget 9)]
        vm0 emptyFrame 0).1.root_namespace = vm0.root_namespace) :=
  ⟨rfl, no_write_run_preserves_vm 9
    [OpCode.PushVariable (VariableReference.Global 8), OpCode.PushString "",
      OpCode.StringEquals, OpCode.Pop, OpCode.Jump (AddressValue.AbsoluteTarget 9)]
    vm0 emptyFrame 0 rfl⟩

theorem lookup_scalar {m : Bindings} (hm : scalarBindings m = true) :
    ∀ {k : Nat} {v : RawValue}, List.lookup k m = some v → v.isScalar = true := by
  induction m with
  | nil => intro k v h; simp [List.lookup] at h
  | cons p t ih =>
      intro k v h
      cases p with
      | mk k2 v2 =>
          rw [List.lookup_cons] at h
          simp only [scalarBindings, List.all_cons, Bool.and_eq_true] at hm
          cases hb : (k == k2) with
          | true => rw [hb] at h; cases h; exact hm.1
          | false =>
              rw [hb] at h
              exact ih (by simpa [scalarBindings] using hm.2) h

theorem deref_scalar {g : Bindings} {f : StackFrame} (hg : scalarBindings g = true)
    (hl : scalarBindings f.locals = true) {r : VariableReference} {v : RawValue}
    (h : r.deref g f = .ok v) : v.isScalar = true := by
  cases r with
  | Global value =>
      simp only [VariableReference.deref] at h
      cases hq : List.lookup value g with
      | none => rw [hq] at h; exact Except.noConfusion h
      | some w => rw [hq] at h; cases h; exact lookup_scalar hg hq
  | Local value =>
      simp only [VariableReference.deref] at h
      cases hq : List.lookup value f.locals with
      | none => rw [hq] at h; exact Except.noConfusion h
      | some w => rw [hq] at h; cases h; exact lookup_scalar hl hq

theorem as_raw_scalar {g : Bindings} {f : StackFrame} (hg : scalarBindings g = true)
    (hl : scalarBindings f.locals = true) {sv : SystemValue}
    (hs : sv.rawScalar = true) : (sv.as_raw g f).isScalar = true := by
  cases sv with
  | Raw v => simpa [SystemValue.as_raw, SystemValue.rawScalar] using hs
  | Variable r =>
      simp only [SystemValue.as_raw]
      cases hq : r.deref g f with
      | ok d => exact deref_scalar hg hl hq
      | error e => simp [RawValue.isScalar]

theorem stepInstr_root_namespace (vm : VirtualMachine) (frame : StackFrame)
    (n : Nat) (op : OpCode) :
    (stepInstr vm frame n op).vmOf.root_namespace = vm.root_namespace := by
  cases op <;> (simp only [stepInstr]; repeat' split) <;>
    simp [StepOut.vmOf, lookup_function_cached_fst]

theorem runLoop_root_namespace (fuel : Nat) :
    ∀ (ops : List OpCode) (vm : VirtualMachine) (frame : StackFrame) (pc : Nat),
      (runLoop fuel ops vm frame pc).1.root_namespace = vm.root_namespace := by
  induction fuel with
  | zero => intro ops vm frame pc; simp [runLoop]
  | succ n ih =>
      intro ops vm frame pc
      rw [runLoop]
      split
      · rename_i hlt
        have hns := stepInstr_root_namespace vm frame (pc + 1) (ops.get ⟨pc, hlt⟩)
        split
        · rename_i vm1 f1 p1 heq
          rw [heq] at hns
          simp only [StepOut.vmOf] at hns
          exact (ih ops vm1 f1 p1).trans hns
        · rename_i vm1 f1 m heq
          rw [heq] at hns
          simp only [StepOut.vmOf] at hns
          exact hns
        · rename_i vm1 f1 p1 body heq
          rw [heq] at hns
          simp only [StepOut.vmOf] at hns
          split
          · exact (ih ops (runLoop n body vm1 emptyFrame 0).1 f1 p1).trans
              ((ih body vm1 emptyFrame 0).trans hns)
          · exact (ih body vm1 emptyFrame 0).trans hns
      · rfl

theorem goodFrame_tail2 {frame : StackFrame} {lhs rhs : SystemValue} {rest : List SystemValue}
    (heq : frame.stack = lhs :: rhs :: rest) (hf : goodFrame frame = true) :
    lhs.rawScalar = true ∧ rhs.rawScalar = true
      ∧ rest.all SystemValue.rawScalar = true ∧ scalarBindings frame.locals = true := by
  simp only [goodFrame, Bool.and_eq_true, heq, List.all_cons] at hf
  exact ⟨hf.1.1, hf.1.2.1, hf.1.2.2, hf.2⟩

theorem goodFrame_tail1 {frame : StackFrame} {top : SystemValue} {rest : List SystemValue}
    (heq : frame.stack = top :: rest) (hf : goodFrame frame = true) :
    top.rawScalar = true ∧ rest.all SystemValue.rawScalar = true
      ∧ scalarBindings frame.locals = true := by
  simp only [goodFrame, Bool.and_eq_true, heq, List.all_cons] at hf
  exact ⟨hf.1.1, hf.1.2, hf.2⟩

theorem goodFrame_of_parts {s : List SystemValue} {l : Bindings}
    (hs : s.all SystemValue.rawScalar = true) (hl : scalarBindings l = true) :
    goodFrame { stack := s, locals := l } = true := by
  simp [goodFrame, hs, hl]

theorem all_cons_of {a : SystemValue} {t : List SystemValue} (ha : a.rawScalar = true)
    (ht : t.all SystemValue.rawScalar = true) :
    (a :: t).all SystemValue.rawScalar = true := by
  simp [List.all_cons, ha, ht]

theorem stepInstr_scalar (vm : VirtualMachine) (frame : StackFrame) (n : Nat)
    (op : OpCode)
    (hg : scalarBindings vm.globals = true)
    (hns : NamespaceScalarOK vm.root_namespace)
    (hf : goodFrame frame = true) :
    (stepInstr vm frame n op).stateScalar := by
  have hstack : frame.stack.all SystemValue.rawScalar = true := by
    have h2 := hf
    simp only [goodFrame, Bool.and_eq_true] at h2
    exact h2.1
  have hloc : scalarBindings frame.locals = true := by
    have h2 := hf
    simp only [goodFrame, Bool.and_eq_true] at h2
    exact h2.2
  cases op
  case Assignment =>
      simp only [stepInstr]
      split
      · rename_i lhs rhs rest heq
        obtain ⟨hlhs, hrhs, hrest, hloc2⟩ := goodFrame_tail2 heq hf
        cases hv : lhs.as_variable with
        | error e =>
            exact ⟨hg, goodFrame_of_parts hrest hloc⟩
        | ok target =>
            have hraw : (rhs.as_raw vm.globals { frame with stack := rest }).isScalar = true :=
              as_raw_scalar hg hloc hrhs
            cases target with
            | Global id =>
                simp only [VariableReference.perform_assignment, StepOut.stateScalar]
                constructor
                · simp only [scalarBindings, List.all_cons, Bool.and_eq_true]
                  exact ⟨hraw, hg⟩
                · exact goodFrame_of_parts (all_cons_of hlhs hrest) hloc
            | Local id =>
                simp only [VariableReference.perform_assignment, StepOut.stateScalar]
                constructor
                · exact hg
                · refine goodFrame_of_parts (all_cons_of hlhs hrest) ?_
                  simp only [scalarBindings, List.all_cons, Bool.and_eq_true]
                  exact ⟨hraw, hloc⟩
      · exact ⟨hg, hf⟩
  case CallFunction =>
      rename_i target
      simp only [stepInstr]
      split
      · exact ⟨hg, hf⟩
      · rename_i ps binding heq
        have hok := hns target _ heq
        simp only [FunctionScalarOK] at hok
        split
        · rename_i globals1 hb
          exact ⟨hok frame vm.globals globals1 hg hb, hf⟩
        · exact ⟨hg, hf⟩
      · exact ⟨hg, hf⟩
  all_goals ((simp only [stepInstr]; repeat' split) <;>
    (first
      | exact ⟨hg, hf⟩
      | (rename_i heq hcond
         first
           | exact ⟨hg, goodFrame_of_parts
               (all_cons_of rfl (goodFrame_tail2 heq hf).2.2.1) (goodFrame_tail2 heq hf).2.2.2⟩
           | exact ⟨hg, goodFrame_of_parts
               (goodFrame_tail2 heq hf).2.2.1 (goodFrame_tail2 heq hf).2.2.2⟩
           | exact ⟨hg, goodFrame_of_parts
               (all_cons_of rfl (goodFrame_tail1 heq hf).2.1) (goodFrame_tail1 heq hf).2.2⟩
           | exact ⟨hg, goodFrame_of_parts
               (goodFrame_tail1 heq hf).2.1 (goodFrame_tail1 heq hf).2.2⟩)
      | (rename_i heq
         first
           | exact ⟨hg, goodFrame_of_parts
               (all_cons_of rfl (goodFrame_tail2 heq hf).2.2.1) (goodFrame_tail2 heq hf).2.2.2⟩
           | exact ⟨hg, goodFrame_of_parts
               (goodFrame_tail2 heq hf).2.2.1 (goodFrame_tail2 heq hf).2.2.2⟩
           | exact ⟨hg, goodFrame_of_parts
               (all_cons_of rfl (goodFrame_tail1 heq hf).2.1) (goodFrame_tail1 heq hf).2.2⟩
           | exact ⟨hg, goodFrame_of_parts
               (goodFrame_tail1 heq hf).2.1 (goodFrame_tail1 heq hf).2.2⟩
           | exact ⟨hg, goodFrame_of_parts (heq ▸ hstack) hloc⟩)
      | exact ⟨hg, goodFrame_of_parts (all_cons_of rfl hstack) hloc⟩))

theorem runLoop_scalar_aux (fuel : Nat) :
    ∀ (ops : List OpCode) (vm : VirtualMachine) (frame : StackFrame) (pc : Nat),
      scalarBindings vm.globals = true →
      NamespaceScalarOK vm.root_namespace →
      goodFrame frame = true →
      scalarBindings (runLoop fuel ops vm frame pc).1.globals = true
      ∧ goodFrame (runLoop fuel ops vm frame pc).2.1 = true := by
  induction fuel with
  | zero =>
      intro ops vm frame pc hg hns hf
      exact ⟨hg, hf⟩
  | succ n ih =>
      intro ops vm frame pc hg hns hf
      rw [runLoop]
      split
      · rename_i hlt
        have hstep := stepInstr_scalar vm frame (pc + 1) (ops.get ⟨pc, hlt⟩) hg hns hf
        have hnsAfter := stepInstr_root_namespace vm frame (pc + 1) (ops.get ⟨pc, hlt⟩)
        split
        · rename_i vm1 f1 p1 heq
          rw [heq] at hstep hnsAfter
          simp only [StepOut.stateScalar] at hstep
          simp only [StepOut.vmOf] at hnsAfter
          exact ih ops vm1 f1 p1 hstep.1 (by rw [hnsAfter]; exact hns) hstep.2
        · rename_i vm1 f1 m heq
          rw [heq] at hstep
          simp only [StepOut.stateScalar] at hstep
          exact hstep
        · rename_i vm1 f1 p1 body heq
          rw [heq] at hstep hnsAfter
          simp only [StepOut.stateScalar] at hstep
          simp only [StepOut.vmOf] at hnsAfter
          have hns1 : NamespaceScalarOK vm1.root_namespace := by
            rw [hnsAfter]; exact hns
          have hrec := ih body vm1 emptyFrame 0 hstep.1 hns1 rfl
          have hns2 : NamespaceScalarOK (runLoop n body vm1 emptyFrame 0).1.root_namespace := by
            rw [runLoop_root_namespace n body vm1 emptyFrame 0]; exact hns1
          split
          · exact ih ops (runLoop n body vm1 emptyFrame 0).1 f1 p1 hrec.1 hns2 hstep.2
          · exact ⟨hrec.1, hstep.2⟩
      · exact ⟨hg, hf⟩

theorem emptyNamespace_lookup_fails (path : List String) (f : Function) :
    ((Namespace.mk [] [] [] []).lookup_function_cached path).2 = Except.ok f → False := by
  cases path with
  | nil =>
      simp [Namespace.lookup_function_cached, Namespace.lookup_function_uncached_slice,
        Namespace.function_cache, List.lookup]
  | cons a t =>
      cases t with
      | nil =>
          simp [Namespace.lookup_function_cached, Namespace.lookup_function_uncached_slice,
            Namespace.function_cache, Namespace.functions, List.lookup]
      | cons b t2 =>
          simp [Namespace.lookup_function_cached, Namespace.lookup_function_uncached_slice,
            Namespace.children, Namespace.function_cache, List.lookup]

/-- Claim C9: the interpreter's binding invariant.  If all globals are
materialized scalars, the frame is well-formed (all raw stack slots and
locals scalar), and every function the namespace can resolve honors the
scalarity contract, then after running any instruction sequence — through
any opcode, including Assignment (which materializes the right-hand side
through as_raw before insertion) and nested calls — every value stored in
the frame's locals and in the VM's globals is still a materialized scalar,
never a Variable/Reference variant. -/
theorem opcodes_keep_bindings_scalar (fuel : Nat) (ops : List OpCode)
    (vm : VirtualMachine) (frame : StackFrame) (pc : Nat)
    (hg : scalarBindings vm.globals = true)
    (hns : NamespaceScalarOK vm.root_namespace)
    (hf : goodFrame frame = true) :
    scalarBindings (runLoop fuel ops vm frame pc).1.globals = true
  ∧ scalarBindings (runLoop fuel ops vm frame pc).2.1.locals = true := by
  have h := runLoop_scalar_aux fuel ops vm frame pc hg hns hf
  refine ⟨h.1, ?_⟩
  have h2 := h.2
  simp only [goodFrame, Bool.and_eq_true] at h2
  exact h2.2

/-- Claim C9, witness at a concrete input: a run that assigns the integer
3 to `Local 1` on the fresh VM keeps all bindings scalar. -/
theorem opcodes_keep_bindings_scalar_witness :
    (scalarBindings vm0.globals = true ∧ goodFrame emptyFrame = true)
  ∧ (scalarBindings (runLoop 4 [OpCode.PushInteger 3,
        OpCode.PushVariable (VariableReference.Local 1), OpCode.Assignment]
        vm0 emptyFrame 0).1.globals = true
    ∧ scalarBindings (runLoop 4 [OpCode.PushInteger 3,
        OpCode.PushVariable (VariableReference.Local 1), OpCode.Assignment]
        vm0 emptyFrame 0).2.1.locals = true) :=
  ⟨⟨rfl, rfl⟩, opcodes_keep_bindings_scalar 4
    [OpCode.PushInteger 3, OpCode.PushVariable (VariableReference.Local 1), OpCode.Assignment]
    vm0 emptyFrame 0 rfl
    (fun path f h => (emptyNamespace_lookup_fails path f h).elim) rfl⟩
